import Mathlib

/-!
Shallow embedding of the pipeline-orchestration engine in `pipeline.py`
(Task / TaskResult / Pipeline / PipelineBuilder), together with proofs of
the behavioural properties claimed for it.

Modelling conventions:
* Python `dict` values become insertion-ordered association lists
  (`Dict` below) with Python `d[k] = v` / `d.update(u)` semantics.
* Task objects live in a heap `store : Nat → Task`; dependency references
  (`Task._dependencies`) are stored task ids, so that the engine's in-place
  mutation of a task's `status` is visible through every reference to it,
  exactly as with Python object aliasing.
* `datetime.now()` is an abstract monotone clock (`PipelineState.clock`);
  timestamps are opaque to the engine and to every claim.
* A task's `execute` body is the function field `execImpl`; it either
  returns a `TaskResult` or lets an exception escape (`ExecOutcome.raised`).
  A task's `validate` body is the boolean field `validateImpl` (the spec
  declares `validate` a pure configuration check).
* Hook callables are modelled by whether invoking them raises
  (`Hook.raises`); observable behaviour (which hooks fire, with which
  payloads, and in which order) is recorded in an event trace.
-/

namespace PipelineCore

/-- Python values stored in `config` / `context` / `output` mappings.
The engine never inspects these values; two constructors cover all uses. -/
inductive Value where
  | str (s : String)
  | nat (n : Nat)
deriving DecidableEq

/-- Insertion-ordered string-keyed mapping: the embedding of a Python `dict`. -/
abbrev Dict (α : Type) : Type := List (String × α)

/-- Python `d[k]` (first matching key; engine-built dicts have distinct keys). -/
def dictLookup {α : Type} : Dict α → String → Option α
  | [], _ => none
  | (k', v) :: rest, k => if k' = k then some v else dictLookup rest k

/-- Python `d[k] = v`: overwrite in place when the key exists, else append. -/
def dictSet {α : Type} : Dict α → String → α → Dict α
  | [], k, v => [(k, v)]
  | (k', v') :: rest, k, v =>
    if k' = k then (k, v) :: rest else (k', v') :: dictSet rest k v

/-- Python `d.update(u)`: shallow merge, later keys overwrite earlier ones. -/
def dictUpdate {α : Type} (d u : Dict α) : Dict α :=
  u.foldl (fun acc kv => dictSet acc kv.1 kv.2) d

/-- Python `list(d.keys())`. -/
def dictKeys {α : Type} (d : Dict α) : List String := d.map Prod.fst

/-- `TaskStatus` enumeration (pipeline.py lines 15-21). -/
inductive TaskStatus where
  | pending
  | running
  | success
  | failed
  | skipped
deriving DecidableEq

/-- `PipelineType` enumeration (pipeline.py lines 24-28). -/
inductive PipelineType where
  | dataOffloading
  | transformation
  | custom
deriving DecidableEq

/-- `TaskResult` dataclass (pipeline.py lines 31-39); timestamps are clock
readings, `output` is the mapping merged into the context on success
(Python `None` and `{}` are both the falsy empty mapping `[]`). -/
structure TaskResult where
  status : TaskStatus
  start_time : Nat
  end_time : Nat
  output : Dict Value
  error : Option String
  metadata : Dict Value
deriving DecidableEq

/-- Outcome of running a task's `execute` body: a returned `TaskResult`, or
an exception escaping the task's own boundary. -/
inductive ExecOutcome where
  | ok (r : TaskResult)
  | raised

/-- Concrete class of a task, used by `PipelineBuilder`'s `isinstance`
searches (pipeline.py lines 433 and 452). -/
inductive TaskKind where
  | exportData
  | uploadToAdls
  | databricksJob
  | custom
deriving DecidableEq

/-- A `Task` object (pipeline.py lines 42-76): `__init__` state plus the
polymorphic `execute` / `validate` bodies.  `deps` holds ids of the
referenced task objects (`_dependencies`). -/
structure Task where
  name : String
  config : Dict Value
  status : TaskStatus
  result : Option TaskResult
  deps : List Nat
  kind : TaskKind
  execImpl : Dict Value → ExecOutcome
  validateImpl : Bool

/-- `Task.add_dependency` (pipeline.py lines 63-65). -/
def Task.add_dependency (t : Task) (tid : Nat) : Task :=
  { t with deps := t.deps ++ [tid] }

/-- `Task.can_execute` (pipeline.py lines 67-69): all dependencies have
status SUCCESS, read through the shared task heap. -/
def Task.can_execute (store : Nat → Task) (t : Task) : Bool :=
  t.deps.all fun d => decide ((store d).status = TaskStatus.success)

/-- A registered lifecycle hook: `hid` identifies the callable in the
trace, `raises` says whether invoking it raises. -/
structure Hook where
  hid : Nat
  raises : Bool
deriving DecidableEq

/-- Payload passed to hooks; the four shapes of pipeline.py lines 345, 362,
378 and 391 (`pipeline` is identified by its name). -/
inductive HookPayload where
  | beforePipeline (pname : String)
  | afterPipeline (pname : String) (results : Dict TaskResult)
  | beforeTask (tname : String) (context : Dict Value)
  | afterTask (tname : String) (r : TaskResult)
deriving DecidableEq

/-- Observable events of one engine run. -/
inductive Event where
  | hooksRun (event : String) (payload : HookPayload)
  | hookCalled (event : String) (hid : Nat) (raised : Bool)
  | taskValidated (name : String)
  | taskSkipped (name : String)
  | taskRun (name : String) (r : TaskResult)
deriving DecidableEq

/-- Invoking one hook callable: `hook(context)` at pipeline.py line 399,
which may raise. -/
def callHook (h : Hook) : Except String Unit :=
  if h.raises then Except.error "hook raised" else Except.ok ()

/-- Loop body of `Pipeline._execute_hooks` (pipeline.py lines 397-401):
each hook is invoked inside its own try/except, so a raising hook is
caught and logged and the remaining hooks still run. -/
def executeHooksAux (ev : String) : List Hook → List Event
  | [] => []
  | h :: rest =>
    match callHook h with
    | Except.ok _ => Event.hookCalled ev h.hid false :: executeHooksAux ev rest
    | Except.error _ => Event.hookCalled ev h.hid true :: executeHooksAux ev rest

/-- `Pipeline` object state that is fixed during one `execute()` call:
identity, task list (ids into the heap) and the hook registry
(pipeline.py lines 302-314). -/
structure Pipeline where
  name : String
  pipeline_type : PipelineType
  tasks : List Nat
  hooks : Dict (List Hook)
deriving DecidableEq

/-- `Pipeline.__init__` (pipeline.py lines 302-314): empty tasks, and a hook
registry holding exactly the four fixed event names. -/
def Pipeline.init (name : String) (ty : PipelineType) : Pipeline :=
  { name := name, pipeline_type := ty, tasks := [],
    hooks := [("before_pipeline", []), ("after_pipeline", []),
              ("before_task", []), ("after_task", [])] }

/-- `Pipeline.add_task` (pipeline.py lines 316-319). -/
def Pipeline.add_task (p : Pipeline) (tid : Nat) : Pipeline :=
  { p with tasks := p.tasks ++ [tid] }

/-- `Pipeline.add_hook` (pipeline.py lines 321-325): append the hook only
when the event name is already a registry key. -/
def Pipeline.add_hook (p : Pipeline) (event : String) (h : Hook) : Pipeline :=
  match dictLookup p.hooks event with
  | some hs => { p with hooks := dictSet p.hooks event (hs ++ [h]) }
  | none => p

/-- `Pipeline._execute_hooks` (pipeline.py lines 395-401): run every hook
registered for `ev` in registration order; the leading `hooksRun` event
marks the `_execute_hooks` call itself with its payload. -/
def executeHooks (p : Pipeline) (ev : String) (pl : HookPayload) : List Event :=
  Event.hooksRun ev pl :: executeHooksAux ev ((dictLookup p.hooks ev).getD [])

/-- The mutable state threaded through one `execute()` call: the task heap
and the pipeline's `context` / `results` fields, plus the clock. -/
structure PipelineState where
  store : Nat → Task
  context : Dict Value
  results : Dict TaskResult
  clock : Nat

/-- The synthetic result recorded for a dependency skip
(pipeline.py lines 352-357). -/
def depSkipResult (clk : Nat) : TaskResult :=
  { status := TaskStatus.skipped, start_time := clk, end_time := clk + 1,
    output := [], error := some "Dependencies not satisfied", metadata := [] }

/-- How one loop iteration of `Pipeline.execute` ended: fall through to the
next task, `break` on a FAILED result, or an exception escaping the task. -/
inductive StepOutcome where
  | next
  | broke
  | fatal
deriving DecidableEq

/-- One iteration of the task loop of `Pipeline.execute`
(pipeline.py lines 348-383). -/
def execStep (p : Pipeline) (tid : Nat) (st : PipelineState) :
    StepOutcome × PipelineState × List Event :=
  let t := st.store tid
  if Task.can_execute st.store t = false then
    -- lines 350-359: synthetic SKIPPED result, no hooks, continue
    let r := depSkipResult st.clock
    (StepOutcome.next,
     { store := fun i => if i = tid then { t with result := some r } else st.store i,
       context := st.context,
       results := dictSet st.results t.name r,
       clock := st.clock + 2 },
     [Event.taskSkipped t.name])
  else
    -- line 362: before_task hooks
    let evsB := executeHooks p "before_task" (HookPayload.beforeTask t.name st.context)
    -- line 365: task.status = RUNNING
    let storeR := fun i => if i = tid then { t with status := TaskStatus.running } else st.store i
    -- line 368: result = task.execute(self.context)
    match t.execImpl st.context with
    | ExecOutcome.raised =>
      -- the exception escapes: nothing recorded, loop aborted
      (StepOutcome.fatal,
       { store := storeR, context := st.context, results := st.results, clock := st.clock },
       evsB)
    | ExecOutcome.ok r =>
      -- lines 369-375: set status/result, record, merge successful output
      let t' := { t with status := r.status, result := some r }
      let st' : PipelineState :=
        { store := fun i => if i = tid then t' else st.store i,
          context := if r.status = TaskStatus.success ∧ r.output ≠ [] then
                       dictUpdate st.context r.output
                     else st.context,
          results := dictSet st.results t.name r,
          clock := st.clock }
      -- line 378: after_task hooks; lines 381-383: break on FAILED
      let evsA := executeHooks p "after_task" (HookPayload.afterTask t.name r)
      if r.status = TaskStatus.failed then
        (StepOutcome.broke, st', evsB ++ Event.taskRun t.name r :: evsA)
      else
        (StepOutcome.next, st', evsB ++ Event.taskRun t.name r :: evsA)

/-- The task loop of `Pipeline.execute` (pipeline.py lines 348-383) over a
list of task ids. -/
def runTasks (p : Pipeline) : List Nat → PipelineState → StepOutcome × PipelineState × List Event
  | [], st => (StepOutcome.next, st, [])
  | tid :: rest, st =>
    let s := execStep p tid st
    match s.1 with
    | StepOutcome.next =>
      let r := runTasks p rest s.2.1
      (r.1, r.2.1, s.2.2 ++ r.2.2)
    | StepOutcome.broke => (StepOutcome.broke, s.2.1, s.2.2)
    | StepOutcome.fatal => (StepOutcome.fatal, s.2.1, s.2.2)

/-- `Pipeline.execute` (pipeline.py lines 339-393): before_pipeline hooks,
the task loop inside `try:`, and the `finally:` block that fires the
after_pipeline hooks on every path before returning or re-raising. -/
def Pipeline.execute (p : Pipeline) (st : PipelineState) :
    Except Unit (Dict TaskResult) × PipelineState × List Event :=
  let evs0 := executeHooks p "before_pipeline" (HookPayload.beforePipeline p.name)
  let r := runTasks p p.tasks st
  -- finally: after_pipeline hooks fire with the accumulated results
  let evs2 := executeHooks p "after_pipeline" (HookPayload.afterPipeline p.name r.2.1.results)
  match r.1 with
  | StepOutcome.fatal => (Except.error (), r.2.1, evs0 ++ r.2.2 ++ evs2)
  | _ => (Except.ok r.2.1.results, r.2.1, evs0 ++ r.2.2 ++ evs2)

/-- Loop of `Pipeline.validate` (pipeline.py lines 331-334): validate tasks
in insertion order, returning false at the first failing task. -/
def validateAux (store : Nat → Task) : List Nat → Bool × List Event
  | [] => (true, [])
  | tid :: rest =>
    if (store tid).validateImpl then
      ((validateAux store rest).1,
       Event.taskValidated (store tid).name :: (validateAux store rest).2)
    else
      (false, [Event.taskValidated (store tid).name])

/-- `Pipeline.validate` (pipeline.py lines 327-337). -/
def Pipeline.validate (p : Pipeline) (store : Nat → Task) : Bool × List Event :=
  validateAux store p.tasks

/-- `PipelineBuilder` state (pipeline.py lines 404-409): the task heap it
allocates into, the next fresh task id, and the in-progress pipeline. -/
structure BuilderState where
  store : Nat → Task
  nextId : Nat
  pipeline : Option Pipeline

/-- `Task.__init__` (pipeline.py lines 45-51) for a concrete task class:
`config or {}`, status PENDING, no result, no dependencies.  `beh` and
`vl` are the concrete class's `execute` / `validate` bodies (their
business logic is the out-of-scope metadata/IO collaborator). -/
def mkTask (name : String) (config : Option (Dict Value)) (kind : TaskKind)
    (beh : Dict Value → ExecOutcome) (vl : Bool) : Task :=
  { name := name, config := config.getD [], status := TaskStatus.pending,
    result := none, deps := [], kind := kind, execImpl := beh, validateImpl := vl }

/-- `PipelineBuilder.create_pipeline` (pipeline.py lines 411-414). -/
def create_pipeline (b : BuilderState) (name : String) (ty : PipelineType) : BuilderState :=
  { b with pipeline := some (Pipeline.init name ty) }

/-- `PipelineBuilder.add_export_task` (pipeline.py lines 416-423). -/
def add_export_task (b : BuilderState) (name : String) (config : Option (Dict Value))
    (beh : Dict Value → ExecOutcome) (vl : Bool) : Except String BuilderState :=
  match b.pipeline with
  | none => Except.error "Pipeline not created. Call create_pipeline first."
  | some p =>
    let t := mkTask name config TaskKind.exportData beh vl
    Except.ok { store := fun i => if i = b.nextId then t else b.store i,
                nextId := b.nextId + 1,
                pipeline := some (p.add_task b.nextId) }

/-- `PipelineBuilder.add_upload_task` (pipeline.py lines 425-438): depend on
the most recently added `ExportDataTask` when one exists. -/
def add_upload_task (b : BuilderState) (name : String) (config : Option (Dict Value))
    (beh : Dict Value → ExecOutcome) (vl : Bool) : Except String BuilderState :=
  match b.pipeline with
  | none => Except.error "Pipeline not created. Call create_pipeline first."
  | some p =>
    let t0 := mkTask name config TaskKind.uploadToAdls beh vl
    let exps := p.tasks.filter fun i => decide ((b.store i).kind = TaskKind.exportData)
    let t := match exps.getLast? with
             | some e => Task.add_dependency t0 e
             | none => t0
    Except.ok { store := fun i => if i = b.nextId then t else b.store i,
                nextId := b.nextId + 1,
                pipeline := some (p.add_task b.nextId) }

/-- `PipelineBuilder.add_databricks_task` (pipeline.py lines 440-457):
stamp `job_type` into the config, depend on the most recently added
`UploadToADLSTask` when one exists. -/
def add_databricks_task (b : BuilderState) (name : String) (job_type : String)
    (config : Option (Dict Value)) (beh : Dict Value → ExecOutcome) (vl : Bool) :
    Except String BuilderState :=
  match b.pipeline with
  | none => Except.error "Pipeline not created. Call create_pipeline first."
  | some p =>
    let task_config := dictSet (config.getD []) "job_type" (Value.str job_type)
    let t0 := mkTask name (some task_config) TaskKind.databricksJob beh vl
    let ups := p.tasks.filter fun i => decide ((b.store i).kind = TaskKind.uploadToAdls)
    let t := match ups.getLast? with
             | some u => Task.add_dependency t0 u
             | none => t0
    Except.ok { store := fun i => if i = b.nextId then t else b.store i,
                nextId := b.nextId + 1,
                pipeline := some (p.add_task b.nextId) }

/-- `PipelineBuilder.add_custom_task` (pipeline.py lines 459-465). -/
def add_custom_task (b : BuilderState) (t : Task) : Except String BuilderState :=
  match b.pipeline with
  | none => Except.error "Pipeline not created. Call create_pipeline first."
  | some p =>
    Except.ok { store := fun i => if i = b.nextId then t else b.store i,
                nextId := b.nextId + 1,
                pipeline := some (p.add_task b.nextId) }

/-- `PipelineBuilder.with_hook` (pipeline.py lines 467-473). -/
def with_hook (b : BuilderState) (event : String) (h : Hook) : Except String BuilderState :=
  match b.pipeline with
  | none => Except.error "Pipeline not created. Call create_pipeline first."
  | some p => Except.ok { b with pipeline := some (p.add_hook event h) }

/-- `PipelineBuilder.build` (pipeline.py lines 475-480). -/
def build (b : BuilderState) : Except String Pipeline :=
  match b.pipeline with
  | none => Except.error "Pipeline not created. Call create_pipeline first."
  | some p => Except.ok p

/-- Names of a list of task ids, read from a heap. -/
def namesOf (store : Nat → Task) (ids : List Nat) : List String :=
  ids.map fun i => (store i).name

/-- The four fixed hook event names of `Pipeline.__init__`. -/
def fixedEvents : List String :=
  ["before_pipeline", "after_pipeline", "before_task", "after_task"]

/-- Events marking a task being run or dependency-skipped. -/
def isTaskEv : Event → Bool
  | Event.taskRun _ _ => true
  | Event.taskSkipped _ => true
  | _ => false

def taskEvents (evs : List Event) : List Event := evs.filter isTaskEv

/-- The `hooksRun` marker of an `_execute_hooks('after_pipeline', ...)` call. -/
def isAfterPipelineRun : Event → Bool
  | Event.hooksRun e _ => decide (e = "after_pipeline")
  | _ => false

/-- An individual after_pipeline hook invocation. -/
def isAfterPipelineCall : Event → Bool
  | Event.hookCalled e _ _ => decide (e = "after_pipeline")
  | _ => false

/-- The outputs of successfully executed tasks with non-empty output, in
execution order, read off a trace. -/
def successOutputs (evs : List Event) : List (Dict Value) :=
  evs.filterMap fun e =>
    match e with
    | Event.taskRun _ r =>
      if r.status = TaskStatus.success ∧ r.output ≠ [] then some r.output else none
    | _ => none

/-- Whether a builder step succeeded. -/
def builderOk (r : Except String BuilderState) : Bool :=
  match r with
  | Except.ok _ => true
  | Except.error _ => false

/-- The dependency list of the task stored at `i` after a successful
builder step. -/
def newTaskDeps (r : Except String BuilderState) (i : Nat) : Option (List Nat) :=
  match r with
  | Except.ok b => some ((b.store i).deps)
  | Except.error _ => none

/-! ### Concrete executions used as witnesses and counterexamples

These mirror the spec's example scenario 1 (task A succeeds with
`output={'x':1}`, B fails, C is never reached) and small variations. -/

def okResultA : TaskResult :=
  { status := TaskStatus.success, start_time := 0, end_time := 1,
    output := [("x", Value.nat 1)], error := none, metadata := [] }

def failResultB : TaskResult :=
  { status := TaskStatus.failed, start_time := 1, end_time := 2,
    output := [], error := some "boom", metadata := [] }

def taskA : Task :=
  { name := "A", config := [], status := TaskStatus.pending, result := none,
    deps := [], kind := TaskKind.custom,
    execImpl := fun _ => ExecOutcome.ok okResultA, validateImpl := true }

def taskB : Task :=
  { name := "B", config := [], status := TaskStatus.pending, result := none,
    deps := [], kind := TaskKind.custom,
    execImpl := fun _ => ExecOutcome.ok failResultB, validateImpl := true }

def taskC : Task :=
  { name := "C", config := [], status := TaskStatus.pending, result := none,
    deps := [], kind := TaskKind.custom,
    execImpl := fun _ => ExecOutcome.raised, validateImpl := true }

def c1Store : Nat → Task := fun i => if i = 0 then taskA else if i = 1 then taskB else taskC

def c1Pipeline : Pipeline :=
  { name := "pl", pipeline_type := PipelineType.custom, tasks := [0, 1, 2],
    hooks := (Pipeline.init "pl" PipelineType.custom).hooks }

def c1State : PipelineState :=
  { store := c1Store, context := [], results := [], clock := 0 }

/-- A task whose `execute` raises past its own boundary. -/
def c3Task : Task :=
  { name := "boom", config := [], status := TaskStatus.pending, result := none,
    deps := [], kind := TaskKind.custom,
    execImpl := fun _ => ExecOutcome.raised, validateImpl := true }

def c3Store : Nat → Task := fun _ => c3Task

/-- One raising task plus one registered after_pipeline hook. -/
def c3Pipeline : Pipeline :=
  Pipeline.add_hook (Pipeline.add_task (Pipeline.init "pl" PipelineType.custom) 0)
    "after_pipeline" { hid := 7, raises := false }

def c3State : PipelineState :=
  { store := c3Store, context := [], results := [], clock := 0 }

/-- A pending task that nothing ever runs, used as an unsatisfied
dependency. -/
def c4DepTask : Task :=
  { name := "E", config := [], status := TaskStatus.pending, result := none,
    deps := [], kind := TaskKind.custom,
    execImpl := fun _ => ExecOutcome.raised, validateImpl := true }

/-- A task gated on the pending dependency, so `can_execute()` is false. -/
def c4TaskD : Task :=
  { name := "D", config := [], status := TaskStatus.pending, result := none,
    deps := [5], kind := TaskKind.custom,
    execImpl := fun _ => ExecOutcome.raised, validateImpl := true }

def c4Store : Nat → Task := fun i => if i = 0 then c4TaskD else c4DepTask

def c4Pipeline : Pipeline := Pipeline.init "pl" PipelineType.custom

def c4State : PipelineState :=
  { store := c4Store, context := [], results := [], clock := 3 }

def c8ExportTask : Task :=
  mkTask "export_data" none TaskKind.exportData (fun _ => ExecOutcome.raised) true

def c8Store : Nat → Task := fun _ => c8ExportTask

def c8Pipeline : Pipeline :=
  Pipeline.add_task (Pipeline.init "pl" PipelineType.dataOffloading) 0

def c8Builder : BuilderState :=
  { store := c8Store, nextId := 1, pipeline := some c8Pipeline }

def c10Pipeline : Pipeline := Pipeline.init "pl" PipelineType.custom

def c10Builder : BuilderState :=
  { store := c4Store, nextId := 0, pipeline := some c10Pipeline }

/-! ### Basic lemmas about the `dict` embedding -/

theorem dictLookup_set_self {α : Type} (d : Dict α) (k : String) (v : α) :
    dictLookup (dictSet d k v) k = some v := by
  induction d with
  | nil => simp [dictSet, dictLookup]
  | cons kv rest ih =>
    by_cases h : kv.1 = k
    · simp [dictSet, h, dictLookup]
    · simp [dictSet, h, dictLookup, ih]

theorem dictLookup_set_ne {α : Type} (d : Dict α) (k k' : String) (v : α) (h : k' ≠ k) :
    dictLookup (dictSet d k v) k' = dictLookup d k' := by
  induction d with
  | nil => simp [dictSet, dictLookup, Ne.symm h]
  | cons kv rest ih =>
    obtain ⟨k0, v0⟩ := kv
    by_cases h1 : k0 = k
    · subst h1
      simp [dictSet, dictLookup, Ne.symm h]
    · by_cases h2 : k0 = k'
      · subst h2
        simp [dictSet, dictLookup, h1]
      · simp [dictSet, dictLookup, h1, h2, ih]

theorem mem_dictKeys_set {α : Type} (d : Dict α) (k k' : String) (v : α) :
    k' ∈ dictKeys (dictSet d k v) ↔ k' ∈ dictKeys d ∨ k' = k := by
  induction d with
  | nil => simp [dictSet, dictKeys]
  | cons kv rest ih =>
    by_cases h : kv.1 = k
    · subst h
      simp [dictSet, dictKeys]
      tauto
    · simp only [dictSet, if_neg h, dictKeys, List.map_cons, List.mem_cons] at ih ⊢
      rw [ih]
      tauto

theorem dictKeys_set_of_mem {α : Type} (d : Dict α) (k : String) (v : α) :
    k ∈ dictKeys d → dictKeys (dictSet d k v) = dictKeys d := by
  induction d with
  | nil => intro h; simp [dictKeys] at h
  | cons kv rest ih =>
    intro h
    obtain ⟨k0, v0⟩ := kv
    by_cases h1 : k0 = k
    · subst h1
      simp [dictSet, dictKeys]
    · have h3 : k ∈ dictKeys rest := by
        have h' := h
        simp only [dictKeys, List.map_cons, List.mem_cons] at h'
        rcases h' with h4 | h4
        · exact absurd h4.symm h1
        · simpa [dictKeys] using h4
      have h5 := ih h3
      simp only [dictKeys] at h5
      simp [dictSet, h1, dictKeys, h5]

theorem dictLookup_eq_none_of_not_mem {α : Type} (d : Dict α) (k : String) :
    k ∉ dictKeys d → dictLookup d k = none := by
  induction d with
  | nil => intro _; rfl
  | cons kv rest ih =>
    intro h
    obtain ⟨k0, v0⟩ := kv
    simp only [dictKeys, List.map_cons, List.mem_cons, not_or] at h
    simp only [dictLookup, if_neg (fun he : k0 = k => h.1 he.symm)]
    exact ih (by simpa [dictKeys] using h.2)

/-! ### Lemmas about `_execute_hooks` traces -/

theorem executeHooksAux_eq_map (ev : String) (hs : List Hook) :
    executeHooksAux ev hs = hs.map fun h => Event.hookCalled ev h.hid h.raises := by
  induction hs with
  | nil => rfl
  | cons h rest ih =>
    cases hr : h.raises <;> simp [executeHooksAux, callHook, hr, ih]

theorem taskEvents_executeHooksAux (ev : String) (hs : List Hook) :
    taskEvents (executeHooksAux ev hs) = [] := by
  rw [executeHooksAux_eq_map]
  induction hs with
  | nil => rfl
  | cons h rest ih => simpa [taskEvents, isTaskEv] using ih

theorem taskEvents_executeHooks (p : Pipeline) (ev : String) (pl : HookPayload) :
    taskEvents (executeHooks p ev pl) = [] := by
  simp [executeHooks, taskEvents, isTaskEv]
  simpa [taskEvents] using taskEvents_executeHooksAux ev ((dictLookup p.hooks ev).getD [])

theorem successOutputs_executeHooksAux (ev : String) (hs : List Hook) :
    successOutputs (executeHooksAux ev hs) = [] := by
  rw [executeHooksAux_eq_map]
  induction hs with
  | nil => rfl
  | cons h rest ih => simpa [successOutputs] using ih

theorem successOutputs_executeHooks (p : Pipeline) (ev : String) (pl : HookPayload) :
    successOutputs (executeHooks p ev pl) = [] := by
  simp [executeHooks, successOutputs]
  simpa [successOutputs] using successOutputs_executeHooksAux ev ((dictLookup p.hooks ev).getD [])

theorem afterRun_executeHooksAux (ev : String) (hs : List Hook) :
    (executeHooksAux ev hs).filter isAfterPipelineRun = [] := by
  rw [executeHooksAux_eq_map]
  induction hs with
  | nil => rfl
  | cons h rest ih => simpa [isAfterPipelineRun] using ih

theorem afterRun_executeHooks (p : Pipeline) (ev : String) (pl : HookPayload) :
    (executeHooks p ev pl).filter isAfterPipelineRun =
      if ev = "after_pipeline" then [Event.hooksRun ev pl] else [] := by
  by_cases hev : ev = "after_pipeline" <;>
    simp [executeHooks, isAfterPipelineRun, hev, afterRun_executeHooksAux]

theorem afterCall_executeHooksAux (ev : String) (hs : List Hook) :
    (executeHooksAux ev hs).filter isAfterPipelineCall =
      if ev = "after_pipeline" then
        hs.map fun h => Event.hookCalled ev h.hid h.raises
      else [] := by
  rw [executeHooksAux_eq_map]
  induction hs with
  | nil => simp
  | cons h rest ih =>
    by_cases hev : ev = "after_pipeline" <;>
      simp [isAfterPipelineCall, hev] at ih ⊢ <;> try exact ih

theorem afterCall_executeHooks (p : Pipeline) (ev : String) (pl : HookPayload) :
    (executeHooks p ev pl).filter isAfterPipelineCall =
      if ev = "after_pipeline" then
        ((dictLookup p.hooks ev).getD []).map fun h => Event.hookCalled ev h.hid h.raises
      else [] := by
  have := afterCall_executeHooksAux ev ((dictLookup p.hooks ev).getD [])
  by_cases hev : ev = "after_pipeline" <;>
    simp [executeHooks, isAfterPipelineCall, hev] at this ⊢ <;> exact this

theorem successOutputs_append (a b : List Event) :
    successOutputs (a ++ b) = successOutputs a ++ successOutputs b := by
  simp [successOutputs, List.filterMap_append]

theorem taskEvents_append (a b : List Event) :
    taskEvents (a ++ b) = taskEvents a ++ taskEvents b := by
  simp [taskEvents, List.filter_append]

theorem successOutputs_cons_taskRun (n : String) (r : TaskResult) (evs : List Event) :
    successOutputs (Event.taskRun n r :: evs) =
      (if r.status = TaskStatus.success ∧ r.output ≠ [] then [r.output] else []) ++
        successOutputs evs := by
  by_cases h : r.status = TaskStatus.success ∧ r.output ≠ [] <;>
    simp [successOutputs, List.filterMap_cons, h]

/-! ### Lemmas about one iteration of the task loop -/

theorem beforeTask_ne_afterPipeline : ("before_task" : String) ≠ "after_pipeline" := by decide

theorem afterTask_ne_afterPipeline : ("after_task" : String) ≠ "after_pipeline" := by decide

theorem beforePipeline_ne_afterPipeline : ("before_pipeline" : String) ≠ "after_pipeline" := by
  decide

/-- Every branch of the loop body leaves every task's `name` unchanged. -/
theorem execStep_store_name (p : Pipeline) (tid : Nat) (st : PipelineState) (j : Nat) :
    (((execStep p tid st).2.1).store j).name = (st.store j).name := by
  unfold execStep
  by_cases hc : Task.can_execute st.store (st.store tid) = false
  · by_cases hj : j = tid <;> simp [hc, hj]
  · cases hE : (st.store tid).execImpl st.context with
    | raised => by_cases hj : j = tid <;> simp [hc, hE, hj]
    | ok r =>
      by_cases hf : r.status = TaskStatus.failed <;>
        by_cases hj : j = tid <;> simp [hc, hE, hf, hj]

/-- A loop iteration that falls through to the next task records exactly one
entry, keyed by the current task's name. -/
theorem execStep_next_results (p : Pipeline) (tid : Nat) (st : PipelineState) :
    (execStep p tid st).1 = StepOutcome.next →
    ∃ r, ((execStep p tid st).2.1).results = dictSet st.results (st.store tid).name r := by
  unfold execStep
  by_cases hc : Task.can_execute st.store (st.store tid) = false
  · intro _
    exact ⟨depSkipResult st.clock, by simp [hc]⟩
  · cases hE : (st.store tid).execImpl st.context with
    | raised => intro h; simp [hc, hE] at h
    | ok r =>
      by_cases hf : r.status = TaskStatus.failed
      · intro h; simp [hc, hE, hf] at h
      · intro _; exact ⟨r, by simp [hc, hE, hf]⟩

/-- After one loop iteration the context equals the old context merged, in
order, with the outputs of the successful executions that the iteration's
trace records. -/
theorem execStep_context (p : Pipeline) (tid : Nat) (st : PipelineState) :
    ((execStep p tid st).2.1).context =
      (successOutputs (execStep p tid st).2.2).foldl dictUpdate st.context := by
  unfold execStep
  by_cases hc : Task.can_execute st.store (st.store tid) = false
  · simp [hc, successOutputs]
  · cases hE : (st.store tid).execImpl st.context with
    | raised => simp [hc, hE, successOutputs_executeHooks]
    | ok r =>
      by_cases hf : r.status = TaskStatus.failed
      · have ho : ¬(r.status = TaskStatus.success ∧ r.output ≠ []) := by
          rw [hf]; rintro ⟨h1, _⟩; cases h1
        simp [hc, hE, hf, ho, successOutputs_append, successOutputs_cons_taskRun,
              successOutputs_executeHooks]
      · by_cases ho : r.status = TaskStatus.success ∧ r.output ≠ [] <;>
          simp [hc, hE, hf, ho, successOutputs_append, successOutputs_cons_taskRun,
                successOutputs_executeHooks]

/-- No loop iteration emits an `after_pipeline` `_execute_hooks` marker. -/
theorem execStep_afterRun (p : Pipeline) (tid : Nat) (st : PipelineState) :
    ((execStep p tid st).2.2).filter isAfterPipelineRun = [] := by
  unfold execStep
  by_cases hc : Task.can_execute st.store (st.store tid) = false
  · simp [hc, isAfterPipelineRun]
  · cases hE : (st.store tid).execImpl st.context with
    | raised =>
      simp [hc, hE, afterRun_executeHooks, beforeTask_ne_afterPipeline]
    | ok r =>
      by_cases hf : r.status = TaskStatus.failed <;>
        simp [hc, hE, hf, List.filter_append, afterRun_executeHooks,
              beforeTask_ne_afterPipeline, afterTask_ne_afterPipeline, isAfterPipelineRun]

/-- No loop iteration invokes an `after_pipeline` hook. -/
theorem execStep_afterCall (p : Pipeline) (tid : Nat) (st : PipelineState) :
    ((execStep p tid st).2.2).filter isAfterPipelineCall = [] := by
  unfold execStep
  by_cases hc : Task.can_execute st.store (st.store tid) = false
  · simp [hc, isAfterPipelineCall]
  · cases hE : (st.store tid).execImpl st.context with
    | raised =>
      simp [hc, hE, afterCall_executeHooks, beforeTask_ne_afterPipeline]
    | ok r =>
      by_cases hf : r.status = TaskStatus.failed <;>
        simp [hc, hE, hf, List.filter_append, afterCall_executeHooks,
              beforeTask_ne_afterPipeline, afterTask_ne_afterPipeline, isAfterPipelineCall]

/-- The loop-exit signal and the post-state of one iteration do not depend
on the hook registry: a hook can never abort or alter task execution. -/
theorem execStep_hooks_indep (p : Pipeline) (hs : Dict (List Hook)) (tid : Nat)
    (st : PipelineState) :
    (execStep { p with hooks := hs } tid st).1 = (execStep p tid st).1 ∧
    (execStep { p with hooks := hs } tid st).2.1 = (execStep p tid st).2.1 := by
  unfold execStep
  by_cases hc : Task.can_execute st.store (st.store tid) = false
  · simp [hc]
  · cases hE : (st.store tid).execImpl st.context with
    | raised => simp [hc, hE]
    | ok r =>
      by_cases hf : r.status = TaskStatus.failed <;> simp [hc, hE, hf]

/-! ### Lemmas about the task loop -/

theorem runTasks_cons_next (p : Pipeline) (tid : Nat) (rest : List Nat) (st : PipelineState)
    (h : (execStep p tid st).1 = StepOutcome.next) :
    runTasks p (tid :: rest) st =
      ((runTasks p rest (execStep p tid st).2.1).1,
       (runTasks p rest (execStep p tid st).2.1).2.1,
       (execStep p tid st).2.2 ++ (runTasks p rest (execStep p tid st).2.1).2.2) := by
  simp [runTasks, h]

theorem runTasks_cons_broke (p : Pipeline) (tid : Nat) (rest : List Nat) (st : PipelineState)
    (h : (execStep p tid st).1 = StepOutcome.broke) :
    runTasks p (tid :: rest) st =
      (StepOutcome.broke, (execStep p tid st).2.1, (execStep p tid st).2.2) := by
  simp [runTasks, h]

theorem runTasks_cons_fatal (p : Pipeline) (tid : Nat) (rest : List Nat) (st : PipelineState)
    (h : (execStep p tid st).1 = StepOutcome.fatal) :
    runTasks p (tid :: rest) st =
      (StepOutcome.fatal, (execStep p tid st).2.1, (execStep p tid st).2.2) := by
  simp [runTasks, h]

/-- The task loop never changes any task's name. -/
theorem runTasks_store_name (p : Pipeline) :
    ∀ (ids : List Nat) (st : PipelineState) (j : Nat),
      (((runTasks p ids st).2.1).store j).name = (st.store j).name := by
  intro ids
  induction ids with
  | nil => intro st j; rfl
  | cons tid rest ih =>
    intro st j
    cases hs : (execStep p tid st).1 with
    | next =>
      rw [runTasks_cons_next p tid rest st hs]
      exact (ih _ j).trans (execStep_store_name p tid st j)
    | broke =>
      rw [runTasks_cons_broke p tid rest st hs]
      exact execStep_store_name p tid st j
    | fatal =>
      rw [runTasks_cons_fatal p tid rest st hs]
      exact execStep_store_name p tid st j

/-- A run of the loop that falls off the end of the task list has recorded
exactly one entry per task, keyed by the task names. -/
theorem runTasks_next_keys (p : Pipeline) :
    ∀ (ids : List Nat) (st : PipelineState),
      (runTasks p ids st).1 = StepOutcome.next →
      ∀ k, (k ∈ dictKeys ((runTasks p ids st).2.1).results ↔
            k ∈ dictKeys st.results ∨ k ∈ namesOf st.store ids) := by
  intro ids
  induction ids with
  | nil => intro st _ k; simp [runTasks, namesOf]
  | cons tid rest ih =>
    intro st h k
    cases hs : (execStep p tid st).1 with
    | broke => rw [runTasks_cons_broke p tid rest st hs] at h; simp at h
    | fatal => rw [runTasks_cons_fatal p tid rest st hs] at h; simp at h
    | next =>
      rw [runTasks_cons_next p tid rest st hs] at h ⊢
      obtain ⟨r, hr⟩ := execStep_next_results p tid st hs
      have hkeys := ih (execStep p tid st).2.1 h k
      rw [hr] at hkeys
      have hnames : namesOf ((execStep p tid st).2.1).store rest = namesOf st.store rest := by
        simp only [namesOf]
        exact List.map_congr_left fun i _ => execStep_store_name p tid st i
      rw [hnames] at hkeys
      rw [hkeys, mem_dictKeys_set]
      simp only [namesOf, List.map_cons, List.mem_cons]
      tauto

/-- Splitting a loop over an appended task list after a prefix that fell
through normally. -/
theorem runTasks_append (p : Pipeline) :
    ∀ (ids1 ids2 : List Nat) (st : PipelineState),
      (runTasks p ids1 st).1 = StepOutcome.next →
      runTasks p (ids1 ++ ids2) st =
        ((runTasks p ids2 (runTasks p ids1 st).2.1).1,
         (runTasks p ids2 (runTasks p ids1 st).2.1).2.1,
         (runTasks p ids1 st).2.2 ++ (runTasks p ids2 (runTasks p ids1 st).2.1).2.2) := by
  intro ids1
  induction ids1 with
  | nil => intro ids2 st _; simp [runTasks]
  | cons tid rest ih =>
    intro ids2 st h
    cases hs : (execStep p tid st).1 with
    | broke => rw [runTasks_cons_broke p tid rest st hs] at h; simp at h
    | fatal => rw [runTasks_cons_fatal p tid rest st hs] at h; simp at h
    | next =>
      have h' : (runTasks p rest (execStep p tid st).2.1).1 = StepOutcome.next := by
        rw [runTasks_cons_next p tid rest st hs] at h
        exact h
      rw [List.cons_append, runTasks_cons_next p tid (rest ++ ids2) st hs,
          runTasks_cons_next p tid rest st hs, ih ids2 _ h']
      simp [List.append_assoc]

/-- After any run of the loop, the context is the starting context merged
left-to-right with the successful outputs the trace records. -/
theorem runTasks_context (p : Pipeline) :
    ∀ (ids : List Nat) (st : PipelineState),
      ((runTasks p ids st).2.1).context =
        (successOutputs (runTasks p ids st).2.2).foldl dictUpdate st.context := by
  intro ids
  induction ids with
  | nil => intro st; simp [runTasks, successOutputs]
  | cons tid rest ih =>
    intro st
    cases hs : (execStep p tid st).1 with
    | broke => rw [runTasks_cons_broke p tid rest st hs]; exact execStep_context p tid st
    | fatal => rw [runTasks_cons_fatal p tid rest st hs]; exact execStep_context p tid st
    | next =>
      rw [runTasks_cons_next p tid rest st hs]
      rw [successOutputs_append, List.foldl_append, ← execStep_context p tid st]
      exact ih (execStep p tid st).2.1

/-- The task loop emits no `after_pipeline` `_execute_hooks` marker. -/
theorem runTasks_afterRun (p : Pipeline) :
    ∀ (ids : List Nat) (st : PipelineState),
      ((runTasks p ids st).2.2).filter isAfterPipelineRun = [] := by
  intro ids
  induction ids with
  | nil => intro st; rfl
  | cons tid rest ih =>
    intro st
    cases hs : (execStep p tid st).1 with
    | broke => rw [runTasks_cons_broke p tid rest st hs]; exact execStep_afterRun p tid st
    | fatal => rw [runTasks_cons_fatal p tid rest st hs]; exact execStep_afterRun p tid st
    | next =>
      rw [runTasks_cons_next p tid rest st hs]
      simp [List.filter_append, execStep_afterRun p tid st, ih]

/-- The task loop invokes no `after_pipeline` hook. -/
theorem runTasks_afterCall (p : Pipeline) :
    ∀ (ids : List Nat) (st : PipelineState),
      ((runTasks p ids st).2.2).filter isAfterPipelineCall = [] := by
  intro ids
  induction ids with
  | nil => intro st; rfl
  | cons tid rest ih =>
    intro st
    cases hs : (execStep p tid st).1 with
    | broke => rw [runTasks_cons_broke p tid rest st hs]; exact execStep_afterCall p tid st
    | fatal => rw [runTasks_cons_fatal p tid rest st hs]; exact execStep_afterCall p tid st
    | next =>
      rw [runTasks_cons_next p tid rest st hs]
      simp [List.filter_append, execStep_afterCall p tid st, ih]

/-- The loop's exit signal and final state do not depend on the hook
registry. -/
theorem runTasks_hooks_indep (p : Pipeline) (hs : Dict (List Hook)) :
    ∀ (ids : List Nat) (st : PipelineState),
      (runTasks { p with hooks := hs } ids st).1 = (runTasks p ids st).1 ∧
      (runTasks { p with hooks := hs } ids st).2.1 = (runTasks p ids st).2.1 := by
  intro ids
  induction ids with
  | nil => intro st; exact ⟨rfl, rfl⟩
  | cons tid rest ih =>
    intro st
    obtain ⟨h1, h2⟩ := execStep_hooks_indep p hs tid st
    cases hso : (execStep p tid st).1 with
    | next =>
      have h1' : (execStep { p with hooks := hs } tid st).1 = StepOutcome.next := by
        rw [h1, hso]
      rw [runTasks_cons_next p tid rest st hso,
          runTasks_cons_next { p with hooks := hs } tid rest st h1', h2]
      exact ⟨(ih _).1, (ih _).2⟩
    | broke =>
      have h1' : (execStep { p with hooks := hs } tid st).1 = StepOutcome.broke := by
        rw [h1, hso]
      rw [runTasks_cons_broke p tid rest st hso,
          runTasks_cons_broke { p with hooks := hs } tid rest st h1']
      exact ⟨rfl, h2⟩
    | fatal =>
      have h1' : (execStep { p with hooks := hs } tid st).1 = StepOutcome.fatal := by
        rw [h1, hso]
      rw [runTasks_cons_fatal p tid rest st hso,
          runTasks_cons_fatal { p with hooks := hs } tid rest st h1']
      exact ⟨rfl, h2⟩

theorem taskEvents_cons_taskRun (n : String) (r : TaskResult) (evs : List Event) :
    taskEvents (Event.taskRun n r :: evs) = Event.taskRun n r :: taskEvents evs := by
  simp [taskEvents, isTaskEv]

/-! ### Claim theorems -/

/-- Claim C2: for every pipeline execution, the after_pipeline hooks fire
exactly once per `Pipeline.execute()` call, with payload
`{pipeline, results}` where `results` is the accumulated results mapping,
regardless of whether the task loop completed normally, stopped early on a
FAILED task, or was aborted by an exception escaping a task's
`execute()`.  The trace of every execution contains exactly one
`after_pipeline` `_execute_hooks` marker, carrying the final results as
payload, and exactly one invocation of each registered after_pipeline
hook, in registration order. -/
theorem c2_after_pipeline_fires_once (p : Pipeline) (st : PipelineState) :
    ((Pipeline.execute p st).2.2).filter isAfterPipelineRun =
      [Event.hooksRun "after_pipeline"
        (HookPayload.afterPipeline p.name ((Pipeline.execute p st).2.1).results)] ∧
    ((Pipeline.execute p st).2.2).filter isAfterPipelineCall =
      ((dictLookup p.hooks "after_pipeline").getD []).map
        (fun h => Event.hookCalled "after_pipeline" h.hid h.raises) := by
  have hrun := runTasks_afterRun p p.tasks st
  have hrunC := runTasks_afterCall p p.tasks st
  cases ho : (runTasks p p.tasks st).1 <;>
    simp [Pipeline.execute, ho, List.filter_append, afterRun_executeHooks,
          afterCall_executeHooks, beforePipeline_ne_afterPipeline, hrun, hrunC]

/-- Claim C5: for every pipeline execution, the context after the run
equals the shallow left-to-right merge of the output mapping of each task
that executed with status SUCCESS and a non-empty output, in execution
order (colliding keys take the most recently executed such task's value,
which is what `dictUpdate` does); no other operation updates the context
during `execute()`.  Instantiating `st.context := []` gives the claim's
empty-start form. -/
theorem c5_context_merge (p : Pipeline) (st : PipelineState) :
    ((Pipeline.execute p st).2.1).context =
      (successOutputs (Pipeline.execute p st).2.2).foldl dictUpdate st.context := by
  have hctx := runTasks_context p p.tasks st
  cases ho : (runTasks p p.tasks st).1 <;>
    simp [Pipeline.execute, ho, successOutputs_append, successOutputs_executeHooks,
          List.foldl_append, hctx]

/-- Claim C6: `Pipeline.validate()` returns false iff some task's
`validate()` returns false; tasks are validated in insertion order and
evaluation stops at the first task whose `validate()` is false, so the
validation trace is exactly the tasks up to and including the first
failing one. -/
theorem c6_validate_fail_fast (p : Pipeline) (store : Nat → Task) :
    ((Pipeline.validate p store).1 = p.tasks.all fun i => (store i).validateImpl) ∧
    ((Pipeline.validate p store).1 = false ↔
      ∃ i ∈ p.tasks, (store i).validateImpl = false) ∧
    ((Pipeline.validate p store).2 =
      ((p.tasks.takeWhile fun i => (store i).validateImpl).map
          fun i => Event.taskValidated (store i).name) ++
      (((p.tasks.dropWhile fun i => (store i).validateImpl).take 1).map
          fun i => Event.taskValidated (store i).name)) := by
  have key : ∀ ids : List Nat,
      validateAux store ids =
        (ids.all fun i => (store i).validateImpl,
         ((ids.takeWhile fun i => (store i).validateImpl).map
             fun i => Event.taskValidated (store i).name) ++
         (((ids.dropWhile fun i => (store i).validateImpl).take 1).map
             fun i => Event.taskValidated (store i).name)) := by
    intro ids
    induction ids with
    | nil => rfl
    | cons tid rest ih =>
      by_cases hv : (store tid).validateImpl = true
      · simp [validateAux, hv, ih, List.takeWhile_cons, List.dropWhile_cons]
      · simp [validateAux, hv, List.takeWhile_cons, List.dropWhile_cons,
              Bool.not_eq_true]
  refine ⟨?_, ?_, ?_⟩
  · rw [Pipeline.validate, key]
  · rw [Pipeline.validate, key]
    simp only [Bool.eq_false_iff, Ne, List.all_eq_true, not_forall]
    constructor
    · rintro ⟨i, hi, hni⟩
      exact ⟨i, hi, Bool.not_eq_true _ ▸ hni⟩
    · rintro ⟨i, hi, hni⟩
      exact ⟨i, hi, by simp [hni]⟩
  · rw [Pipeline.validate, key]

/-- Claim C7: a hook that raises is caught by `_execute_hooks`, all
remaining hooks registered for the event are still invoked in
registration order, and hooks can never abort the pipeline or change
which tasks run or what they produce: the exit signal and the whole final
state of `execute()` are independent of the hook registry. -/
theorem c7_hook_isolation :
    (∀ (ev : String) (hooks : List Hook),
        executeHooksAux ev hooks =
          hooks.map fun h => Event.hookCalled ev h.hid h.raises) ∧
    (∀ (p : Pipeline) (hs : Dict (List Hook)) (st : PipelineState),
        (Pipeline.execute { p with hooks := hs } st).1 = (Pipeline.execute p st).1 ∧
        (Pipeline.execute { p with hooks := hs } st).2.1 = (Pipeline.execute p st).2.1) := by
  constructor
  · exact executeHooksAux_eq_map
  · intro p hs st
    obtain ⟨h1, h2⟩ := runTasks_hooks_indep p hs p.tasks st
    have htasks : ({ p with hooks := hs } : Pipeline).tasks = p.tasks := rfl
    cases ho : (runTasks p p.tasks st).1 with
    | fatal =>
      have ho' : (runTasks { p with hooks := hs } p.tasks st).1 = StepOutcome.fatal :=
        h1.trans ho
      constructor <;> simp [Pipeline.execute, htasks, ho, ho', h2]
    | next =>
      have ho' : (runTasks { p with hooks := hs } p.tasks st).1 = StepOutcome.next :=
        h1.trans ho
      constructor <;> simp [Pipeline.execute, htasks, ho, ho', h2]
    | broke =>
      have ho' : (runTasks { p with hooks := hs } p.tasks st).1 = StepOutcome.broke :=
        h1.trans ho
      constructor <;> simp [Pipeline.execute, htasks, ho, ho', h2]

/-- Claim C4: for every task whose `can_execute()` is false at the moment
the engine reaches it, the engine records a TaskResult with status
SKIPPED and error "Dependencies not satisfied" into `results`
(`depSkipResult` is exactly that record), fires no before_task or
after_task hook for that task (the iteration's whole trace is the single
skip marker), and the loop continues with the next task. -/
theorem c4_dependency_skip (p : Pipeline) (tid : Nat) (rest : List Nat) (st : PipelineState)
    (hc : Task.can_execute st.store (st.store tid) = false) :
    (execStep p tid st).1 = StepOutcome.next ∧
    dictLookup ((execStep p tid st).2.1).results (st.store tid).name =
      some (depSkipResult st.clock) ∧
    (execStep p tid st).2.2 = [Event.taskSkipped (st.store tid).name] ∧
    runTasks p (tid :: rest) st =
      ((runTasks p rest (execStep p tid st).2.1).1,
       (runTasks p rest (execStep p tid st).2.1).2.1,
       (execStep p tid st).2.2 ++ (runTasks p rest (execStep p tid st).2.1).2.2) := by
  have h1 : (execStep p tid st).1 = StepOutcome.next := by
    unfold execStep; simp [hc]
  refine ⟨h1, ?_, ?_, runTasks_cons_next p tid rest st h1⟩
  · unfold execStep; simp [hc, dictLookup_set_self]
  · unfold execStep; simp [hc]

/-- Claim C9: when the engine skips a task because `can_execute()` is
false, it sets the task object's `result` field to the synthetic SKIPPED
TaskResult but leaves the task's `status` field unchanged (hence still
PENDING for a pending task, and never SKIPPED), and touches no other task
object. -/
theorem c9_skip_leaves_status (p : Pipeline) (tid : Nat) (st : PipelineState)
    (hc : Task.can_execute st.store (st.store tid) = false) :
    (((execStep p tid st).2.1).store tid).status = (st.store tid).status ∧
    ((st.store tid).status = TaskStatus.pending →
      (((execStep p tid st).2.1).store tid).status ≠ TaskStatus.skipped) ∧
    (((execStep p tid st).2.1).store tid).result = some (depSkipResult st.clock) ∧
    (∀ j, j ≠ tid → ((execStep p tid st).2.1).store j = st.store j) := by
  have hst : (((execStep p tid st).2.1).store tid).status = (st.store tid).status := by
    unfold execStep; simp [hc]
  refine ⟨hst, ?_, ?_, ?_⟩
  · intro hp
    rw [hst, hp]
    intro hcon
    cases hcon
  · unfold execStep; simp [hc]
  · intro j hj
    unfold execStep; simp [hc, hj]

/-- Claim C10: for every event name not among the four fixed names,
`Pipeline.add_hook` leaves the hook registry unchanged and returns
normally (so the callable is never registered), and
`PipelineBuilder.with_hook` returns the builder unchanged; moreover every
pipeline reachable from `Pipeline.__init__` has exactly the four fixed
registry keys (`init` establishes them and `add_hook` preserves them). -/
theorem c10_unknown_event_ignored (e : String) (h : Hook) (he : e ∉ fixedEvents)
    (p : Pipeline) (hk : dictKeys p.hooks = fixedEvents)
    (b : BuilderState) (hb : b.pipeline = some p)
    (n : String) (ty : PipelineType) (e' : String) (h' : Hook) :
    Pipeline.add_hook p e h = p ∧
    dictKeys (Pipeline.init n ty).hooks = fixedEvents ∧
    dictKeys (Pipeline.add_hook p e' h').hooks = dictKeys p.hooks ∧
    with_hook b e h = Except.ok b := by
  have hnone : dictLookup p.hooks e = none :=
    dictLookup_eq_none_of_not_mem _ _ (by rw [hk]; exact he)
  have hadd : Pipeline.add_hook p e h = p := by
    unfold Pipeline.add_hook; rw [hnone]
  refine ⟨hadd, rfl, ?_, ?_⟩
  · unfold Pipeline.add_hook
    cases hl : dictLookup p.hooks e' with
    | none => rfl
    | some hooks =>
      have hmem : e' ∈ dictKeys p.hooks := by
        by_contra hnm
        rw [dictLookup_eq_none_of_not_mem _ _ hnm] at hl
        cases hl
      simp [dictKeys_set_of_mem _ _ _ hmem]
  · unfold with_hook
    rw [hb]
    simp only [hadd, ← hb]

/-- Claim C1: if the task at position `k` (here: after prefix `pre`, so
`k = pre.length`) returns a TaskResult with status FAILED and no earlier
task failed or raised (the loop over `pre` fell through normally), then
`Pipeline.execute()` stops iterating at that task — the trace records the
prefix's task events followed only by the failing task's run — and the
returned results mapping contains an entry for every task at positions
`0..k` inclusive and no entry for any task at a position greater
than `k`. -/
theorem c1_failed_task_stops_pipeline
    (p : Pipeline) (st : PipelineState) (pre post : List Nat) (tid : Nat) (r : TaskResult)
    (hp : p.tasks = pre ++ tid :: post)
    (h0 : st.results = [])
    (hnd : (namesOf st.store p.tasks).Nodup)
    (h1 : (runTasks p pre st).1 = StepOutcome.next)
    (h2 : Task.can_execute ((runTasks p pre st).2.1).store
            (((runTasks p pre st).2.1).store tid) = true)
    (h3 : (((runTasks p pre st).2.1).store tid).execImpl
            ((runTasks p pre st).2.1).context = ExecOutcome.ok r)
    (h4 : r.status = TaskStatus.failed) :
    (Pipeline.execute p st).1 = Except.ok ((Pipeline.execute p st).2.1).results ∧
    (∀ i ∈ pre, (st.store i).name ∈ dictKeys ((Pipeline.execute p st).2.1).results) ∧
    (st.store tid).name ∈ dictKeys ((Pipeline.execute p st).2.1).results ∧
    (∀ i ∈ post, (st.store i).name ∉ dictKeys ((Pipeline.execute p st).2.1).results) ∧
    taskEvents (Pipeline.execute p st).2.2 =
      taskEvents (runTasks p pre st).2.2 ++ [Event.taskRun (st.store tid).name r] := by
  have hnm : (((runTasks p pre st).2.1).store tid).name = (st.store tid).name :=
    runTasks_store_name p pre st tid
  have hstep1 : (execStep p tid (runTasks p pre st).2.1).1 = StepOutcome.broke := by
    unfold execStep; simp [h2, h3, h4]
  have hstepRes : ((execStep p tid (runTasks p pre st).2.1).2.1).results =
      dictSet ((runTasks p pre st).2.1).results (st.store tid).name r := by
    unfold execStep; simp [h2, h3, h4, hnm]
  have htev : taskEvents (execStep p tid (runTasks p pre st).2.1).2.2 =
      [Event.taskRun (st.store tid).name r] := by
    unfold execStep
    simp [h2, h3, h4, hnm, taskEvents_append, taskEvents_cons_taskRun,
          taskEvents_executeHooks]
  have hrunfull : runTasks p p.tasks st =
      (StepOutcome.broke, (execStep p tid (runTasks p pre st).2.1).2.1,
       (runTasks p pre st).2.2 ++ (execStep p tid (runTasks p pre st).2.1).2.2) := by
    rw [hp, runTasks_append p pre (tid :: post) st h1,
        runTasks_cons_broke p tid post _ hstep1]
  have hres : ((Pipeline.execute p st).2.1).results =
      dictSet ((runTasks p pre st).2.1).results (st.store tid).name r := by
    unfold Pipeline.execute
    rw [hrunfull]
    simp [hstepRes]
  have hkeys : ∀ k, k ∈ dictKeys ((Pipeline.execute p st).2.1).results ↔
      k ∈ namesOf st.store pre ∨ k = (st.store tid).name := by
    intro k
    rw [hres, mem_dictKeys_set, runTasks_next_keys p pre st h1 k, h0]
    simp [dictKeys]
  have heqnames : namesOf st.store p.tasks =
      namesOf st.store pre ++ (st.store tid).name :: namesOf st.store post := by
    simp [hp, namesOf]
  rw [heqnames, List.nodup_append] at hnd
  obtain ⟨hndPre, hndCons, hdisj⟩ := hnd
  rw [List.nodup_cons] at hndCons
  refine ⟨?_, ?_, ?_, ?_, ?_⟩
  · unfold Pipeline.execute
    rw [hrunfull]
  · intro i hi
    exact (hkeys _).mpr (Or.inl (by simp only [namesOf]; exact List.mem_map_of_mem _ hi))
  · exact (hkeys _).mpr (Or.inr rfl)
  · intro i hi hmem
    have hpost : (st.store i).name ∈ namesOf st.store post := by
      simp only [namesOf]; exact List.mem_map_of_mem _ hi
    rcases (hkeys _).mp hmem with hin | heq
    · exact hdisj hin (List.mem_cons_of_mem _ hpost)
    · exact hndCons.1 (heq ▸ hpost)
  · unfold Pipeline.execute
    rw [hrunfull]
    simp [taskEvents_append, taskEvents_executeHooks, htev]

/-- Claim C3 (amended): if some task's `execute()` raises past its own
boundary (and no earlier task failed or raised), `Pipeline.execute()`
propagates the exception, runs no further tasks (the trace's task events
are exactly the prefix's), and records no TaskResult for the raising task
(the results mapping is left exactly as the prefix built it, and the
raising task's name is absent from it); however — contrary to the claim
as stated — the after_pipeline hooks DO fire exactly once on this path,
because the task loop sits in a try/finally whose finally block runs
`_execute_hooks('after_pipeline', ...)` before the exception
propagates. -/
theorem c3_uncaught_fault_propagates
    (p : Pipeline) (st : PipelineState) (pre post : List Nat) (tid : Nat)
    (hp : p.tasks = pre ++ tid :: post)
    (h0 : st.results = [])
    (hnd : (namesOf st.store p.tasks).Nodup)
    (h1 : (runTasks p pre st).1 = StepOutcome.next)
    (h2 : Task.can_execute ((runTasks p pre st).2.1).store
            (((runTasks p pre st).2.1).store tid) = true)
    (h3 : (((runTasks p pre st).2.1).store tid).execImpl
            ((runTasks p pre st).2.1).context = ExecOutcome.raised) :
    (Pipeline.execute p st).1 = Except.error () ∧
    ((Pipeline.execute p st).2.1).results = ((runTasks p pre st).2.1).results ∧
    (st.store tid).name ∉ dictKeys ((Pipeline.execute p st).2.1).results ∧
    taskEvents (Pipeline.execute p st).2.2 = taskEvents (runTasks p pre st).2.2 ∧
    ((Pipeline.execute p st).2.2).filter isAfterPipelineRun =
      [Event.hooksRun "after_pipeline"
        (HookPayload.afterPipeline p.name ((runTasks p pre st).2.1).results)] := by
  have hstep1 : (execStep p tid (runTasks p pre st).2.1).1 = StepOutcome.fatal := by
    unfold execStep; simp [h2, h3]
  have hstepRes : ((execStep p tid (runTasks p pre st).2.1).2.1).results =
      ((runTasks p pre st).2.1).results := by
    unfold execStep; simp [h2, h3]
  have hstepTev : taskEvents (execStep p tid (runTasks p pre st).2.1).2.2 = [] := by
    unfold execStep; simp [h2, h3, taskEvents_executeHooks]
  have hstepAR : ((execStep p tid (runTasks p pre st).2.1).2.2).filter isAfterPipelineRun
      = [] := execStep_afterRun p tid (runTasks p pre st).2.1
  have hrunfull : runTasks p p.tasks st =
      (StepOutcome.fatal, (execStep p tid (runTasks p pre st).2.1).2.1,
       (runTasks p pre st).2.2 ++ (execStep p tid (runTasks p pre st).2.1).2.2) := by
    rw [hp, runTasks_append p pre (tid :: post) st h1,
        runTasks_cons_fatal p tid post _ hstep1]
  have hres : ((Pipeline.execute p st).2.1).results = ((runTasks p pre st).2.1).results := by
    unfold Pipeline.execute
    rw [hrunfull]
    simp [hstepRes]
  have heqnames : namesOf st.store p.tasks =
      namesOf st.store pre ++ (st.store tid).name :: namesOf st.store post := by
    simp [hp, namesOf]
  rw [heqnames, List.nodup_append] at hnd
  obtain ⟨hndPre, hndCons, hdisj⟩ := hnd
  refine ⟨?_, hres, ?_, ?_, ?_⟩
  · unfold Pipeline.execute
    rw [hrunfull]
  · intro hmem
    rw [hres, runTasks_next_keys p pre st h1 _, h0] at hmem
    simp only [dictKeys, List.map_nil, List.not_mem_nil, false_or] at hmem
    exact hdisj hmem (List.mem_cons_self _ _)
  · unfold Pipeline.execute
    rw [hrunfull]
    simp [taskEvents_append, taskEvents_executeHooks, hstepTev]
  · have hpreAR := runTasks_afterRun p pre st
    unfold Pipeline.execute
    rw [hrunfull]
    simp [List.filter_append, afterRun_executeHooks, beforePipeline_ne_afterPipeline,
          hpreAR, hstepAR, hstepRes]

theorem filter_eq_nil_of_false {α : Type} (q : α → Bool) :
    ∀ (l : List α), (∀ x ∈ l, q x = false) → l.filter q = [] := by
  intro l
  induction l with
  | nil => intro _; rfl
  | cons a rest ih =>
    intro h
    rw [List.filter_cons, h a (List.mem_cons_self a rest)]
    exact ih fun x hx => h x (List.mem_cons_of_mem a hx)

theorem getLast?_append_singleton {α : Type} (xs : List α) (a : α) :
    (xs ++ [a]).getLast? = some a := by
  rw [List.getLast?_concat]

/-- Claim C8: `add_upload_task()` produces a task whose dependency list is
exactly the most recently added export task when at least one export task
has been added, and is empty otherwise; `add_databricks_task()` likewise
depends on the most recently added upload task when one exists, and has
an empty dependency list otherwise.  "Most recently added" is pinned
structurally: `e` is the last export (resp. `u` the last upload) when no
task after it in the pipeline's task list has that kind. -/
theorem c8_builder_dependency_wiring
    (b : BuilderState) (p : Pipeline) (hb : b.pipeline = some p)
    (nU nD jt : String) (cU cD : Option (Dict Value))
    (fU fD : Dict Value → ExecOutcome) (vU vD : Bool) :
    ((∀ i ∈ p.tasks, (b.store i).kind ≠ TaskKind.exportData) →
       builderOk (add_upload_task b nU cU fU vU) = true ∧
       newTaskDeps (add_upload_task b nU cU fU vU) b.nextId = some []) ∧
    (∀ l1 e l2, p.tasks = l1 ++ e :: l2 → (b.store e).kind = TaskKind.exportData →
       (∀ i ∈ l2, (b.store i).kind ≠ TaskKind.exportData) →
       newTaskDeps (add_upload_task b nU cU fU vU) b.nextId = some [e]) ∧
    ((∀ i ∈ p.tasks, (b.store i).kind ≠ TaskKind.uploadToAdls) →
       builderOk (add_databricks_task b nD jt cD fD vD) = true ∧
       newTaskDeps (add_databricks_task b nD jt cD fD vD) b.nextId = some []) ∧
    (∀ l1 u l2, p.tasks = l1 ++ u :: l2 → (b.store u).kind = TaskKind.uploadToAdls →
       (∀ i ∈ l2, (b.store i).kind ≠ TaskKind.uploadToAdls) →
       newTaskDeps (add_databricks_task b nD jt cD fD vD) b.nextId = some [u]) := by
  refine ⟨?_, ?_, ?_, ?_⟩
  · intro hno
    have hfil : p.tasks.filter (fun i => decide ((b.store i).kind = TaskKind.exportData)) = [] :=
      filter_eq_nil_of_false _ _ fun i hi => by simp [hno i hi]
    constructor <;>
      simp [add_upload_task, hb, hfil, builderOk, newTaskDeps, mkTask]
  · intro l1 e l2 hsplit hke hno
    have hfil2 : l2.filter (fun i => decide ((b.store i).kind = TaskKind.exportData)) = [] :=
      filter_eq_nil_of_false _ _ fun i hi => by simp [hno i hi]
    have hfil : p.tasks.filter (fun i => decide ((b.store i).kind = TaskKind.exportData)) =
        l1.filter (fun i => decide ((b.store i).kind = TaskKind.exportData)) ++ [e] := by
      rw [hsplit, List.filter_append, List.filter_cons]
      simp [hke, hfil2]
    simp [add_upload_task, hb, hfil, getLast?_append_singleton, newTaskDeps, mkTask,
          Task.add_dependency]
  · intro hno
    have hfil : p.tasks.filter (fun i => decide ((b.store i).kind = TaskKind.uploadToAdls)) = [] :=
      filter_eq_nil_of_false _ _ fun i hi => by simp [hno i hi]
    constructor <;>
      simp [add_databricks_task, hb, hfil, builderOk, newTaskDeps, mkTask]
  · intro l1 u l2 hsplit hku hno
    have hfil2 : l2.filter (fun i => decide ((b.store i).kind = TaskKind.uploadToAdls)) = [] :=
      filter_eq_nil_of_false _ _ fun i hi => by simp [hno i hi]
    have hfil : p.tasks.filter (fun i => decide ((b.store i).kind = TaskKind.uploadToAdls)) =
        l1.filter (fun i => decide ((b.store i).kind = TaskKind.uploadToAdls)) ++ [u] := by
      rw [hsplit, List.filter_append, List.filter_cons]
      simp [hku, hfil2]
    simp [add_databricks_task, hb, hfil, getLast?_append_singleton, newTaskDeps, mkTask,
          Task.add_dependency]

/-! ### Witnesses and counterexample -/

/-- Claim C1 witness: the spec's example scenario — A succeeds, B fails at
position 1, C at position 2 is never reached; B gets a results entry and
C does not. -/
theorem c1_failed_task_stops_pipeline_witness :
    c1Pipeline.tasks = [0] ++ 1 :: [2] ∧
    "B" ∈ dictKeys ((Pipeline.execute c1Pipeline c1State).2.1).results ∧
    "C" ∉ dictKeys ((Pipeline.execute c1Pipeline c1State).2.1).results := by
  have h := c1_failed_task_stops_pipeline c1Pipeline c1State [0] [2] 1 failResultB
    rfl rfl (by decide) rfl rfl rfl rfl
  exact ⟨rfl, h.2.2.1, h.2.2.2.1 2 (by decide)⟩

/-- Claim C3 counterexample: a pipeline whose only task raises, with one
registered after_pipeline hook.  The exception propagates and no
TaskResult is recorded — but the after_pipeline hook IS invoked, refuting
the claim's assertion that the after_pipeline hooks do not fire on this
path. -/
theorem c3_counterexample :
    (Pipeline.execute c3Pipeline c3State).1 = Except.error () ∧
    ((Pipeline.execute c3Pipeline c3State).2.1).results = [] ∧
    Event.hookCalled "after_pipeline" 7 false ∈ (Pipeline.execute c3Pipeline c3State).2.2 := by
  refine ⟨rfl, rfl, ?_⟩
  decide

/-- Claim C3 (amended) witness: the raising-task execution instantiating
the amended theorem. -/
theorem c3_uncaught_fault_propagates_witness :
    c3Pipeline.tasks = [] ++ 0 :: [] ∧
    (Pipeline.execute c3Pipeline c3State).1 = Except.error () := by
  have h := c3_uncaught_fault_propagates c3Pipeline c3State [] [] 0 rfl rfl
    (by decide) rfl rfl rfl
  exact ⟨rfl, h.1⟩

/-- Claim C4 witness: task D depends on a task that never ran, so it is
recorded as SKIPPED with error "Dependencies not satisfied". -/
theorem c4_dependency_skip_witness :
    Task.can_execute c4State.store (c4State.store 0) = false ∧
    dictLookup ((execStep c4Pipeline 0 c4State).2.1).results "D" = some (depSkipResult 3) := by
  have h := c4_dependency_skip c4Pipeline 0 [] c4State (by decide)
  exact ⟨by decide, h.2.1⟩

/-- Claim C8 witness: an upload task added after one export task depends on
exactly that export task. -/
theorem c8_builder_dependency_wiring_witness :
    c8Builder.pipeline = some c8Pipeline ∧
    newTaskDeps (add_upload_task c8Builder "upload_to_adls" none
      (fun _ => ExecOutcome.raised) true) 1 = some [0] := by
  have h := c8_builder_dependency_wiring c8Builder c8Pipeline rfl "upload_to_adls"
    "databricks_job" "unzip" none none (fun _ => ExecOutcome.raised)
    (fun _ => ExecOutcome.raised) true true
  exact ⟨rfl, h.2.1 [] 0 [] rfl rfl (by simp)⟩

/-- Claim C9 witness: the dependency-skipped task's status stays PENDING. -/
theorem c9_skip_leaves_status_witness :
    Task.can_execute c4State.store (c4State.store 0) = false ∧
    (((execStep c4Pipeline 0 c4State).2.1).store 0).status = TaskStatus.pending := by
  have h := c9_skip_leaves_status c4Pipeline 0 c4State (by decide)
  exact ⟨by decide, h.1.trans rfl⟩

/-- Claim C10 witness: registering a hook under the unknown event name
"on_error" leaves the pipeline unchanged. -/
theorem c10_unknown_event_ignored_witness :
    "on_error" ∉ fixedEvents ∧
    Pipeline.add_hook c10Pipeline "on_error" { hid := 1, raises := false } = c10Pipeline := by
  have h := c10_unknown_event_ignored "on_error" { hid := 1, raises := false } (by decide)
    c10Pipeline rfl c10Builder rfl "pl" PipelineType.custom "after_task"
    { hid := 2, raises := true }
  exact ⟨by decide, h.1⟩

end PipelineCore
